import Mathlib

/-
Verification development for the fsutils library (src/lib.rs), a thin
facade over OS filesystem and process calls.

The embedding has two layers, both translated from the source:

* `Fsutils.Flow` embeds the control flow of each library function.  The
  results of the OS calls a function makes (the "filesystem provider" and
  "process provider" collaborators) are passed in as explicit arguments,
  and each function returns, next to its result, the list of OS calls it
  attempted on that control path.  A result of `Ret.terminated` models the
  Rust `.unwrap()` panicking on an `Err`, i.e. process termination.

* `Fsutils.Model` embeds the behaviour of the same functions over an
  explicit filesystem state: an association list from paths (lists of
  components) to nodes (file with contents, or directory), with the root
  `[]` an always-existing directory.  The OS primitives are modelled with
  their ordinary POSIX-like semantics; spurious failures (permissions,
  disk full) and the read/write steps on an already-open handle never
  fail in this deterministic model, so the panic branches of the source
  are unreachable here and are covered by the `Flow` layer instead.
-/

set_option maxHeartbeats 1000000

namespace Fsutils

/-- Result of a single OS call, as surfaced by the provider: success with
a payload, or an error carrying a message (in the source, `io::Error`). -/
inductive OsResult (α : Type) where
  | ok (a : α)
  | err (e : String)
  deriving DecidableEq

/-- The OS calls the library functions can attempt, tagged with the path
(or program name) argument.  Used to record which calls a control path of
a function actually performs. -/
inductive OsCall where
  | pathExists (p : String)
  | createDirAll (p : String)
  | removeFile (p : String)
  | removeDir (p : String)
  | removeDirAll (p : String)
  | fileCreate (p : String)
  | fileOpen (p : String)
  | openAppend (p : String)
  | writeAll (p : String)
  | readToString (p : String)
  | commandStatus (prog : String)
  deriving DecidableEq

/-- Outcome of running a library function: a normal return with a value,
or `terminated`, modelling `.unwrap()` on an `Err` (process-terminating
panic, so the function never returns to its caller). -/
inductive Ret (α : Type) where
  | ret (a : α)
  | terminated
  deriving DecidableEq

namespace Flow

/-- Control flow of `mkdir`: checks `path_exists`; if absent, calls
`fs::create_dir_all` and returns `true` on `Ok`, `false` on `Err`; if the
path already exists it returns `false` without attempting creation. -/
def mkdir (path : String) (existsRes : Bool) (createRes : OsResult Unit) :
    Bool × List OsCall :=
  if !existsRes then
    match createRes with
    | OsResult.ok _ => (true, [OsCall.pathExists path, OsCall.createDirAll path])
    | OsResult.err _ => (false, [OsCall.pathExists path, OsCall.createDirAll path])
  else (false, [OsCall.pathExists path])

/-- Control flow of `rm`: checks `Path::exists`; if present, calls
`fs::remove_file` and returns `true` on `Ok`, `false` on `Err`; if the
path does not exist it returns `false` without attempting removal. -/
def rm (path : String) (existsRes : Bool) (removeRes : OsResult Unit) :
    Bool × List OsCall :=
  if existsRes then
    match removeRes with
    | OsResult.ok _ => (true, [OsCall.pathExists path, OsCall.removeFile path])
    | OsResult.err _ => (false, [OsCall.pathExists path, OsCall.removeFile path])
  else (false, [OsCall.pathExists path])

/-- Control flow of `rmdir`: checks `Path::exists`; if present, calls
`fs::remove_dir` and returns `true` on `Ok`, `false` on `Err`; if the
path does not exist it logs and returns `true` without attempting
removal. -/
def rmdir (path : String) (existsRes : Bool) (removeRes : OsResult Unit) :
    Bool × List OsCall :=
  if existsRes then
    match removeRes with
    | OsResult.ok _ => (true, [OsCall.pathExists path, OsCall.removeDir path])
    | OsResult.err _ => (false, [OsCall.pathExists path, OsCall.removeDir path])
  else (true, [OsCall.pathExists path])

/-- Control flow of `rm_r`: checks `Path::exists`; if present, calls
`fs::remove_dir_all` and returns `true` on `Ok`, `false` on `Err`; if the
path does not exist it logs and returns `true` without attempting
removal. -/
def rm_r (path : String) (existsRes : Bool) (removeRes : OsResult Unit) :
    Bool × List OsCall :=
  if existsRes then
    match removeRes with
    | OsResult.ok _ => (true, [OsCall.pathExists path, OsCall.removeDirAll path])
    | OsResult.err _ => (false, [OsCall.pathExists path, OsCall.removeDirAll path])
  else (true, [OsCall.pathExists path])

/-- Control flow of `write_file`: calls `File::create`; on `Ok` it calls
`write_all(contents)` and applies `.unwrap()` to the result — `Ok` yields
`true`, `Err` terminates the process; on `Err` of the open it logs and
returns `false`. -/
def write_file (path : String) (createRes : OsResult Unit)
    (writeRes : OsResult Unit) : Ret Bool × List OsCall :=
  match createRes with
  | OsResult.ok _ =>
    match writeRes with
    | OsResult.ok _ =>
        (Ret.ret true, [OsCall.fileCreate path, OsCall.writeAll path])
    | OsResult.err _ =>
        (Ret.terminated, [OsCall.fileCreate path, OsCall.writeAll path])
  | OsResult.err _ => (Ret.ret false, [OsCall.fileCreate path])

/-- Control flow of `write_file_append`: opens with
`OpenOptions::new().write(true).create(true).append(true)`; on `Ok` it
calls `write_all(contents)` and applies `.unwrap()` — `Ok` yields `true`,
`Err` terminates the process; on `Err` of the open it logs and returns
`false`. -/
def write_file_append (path : String) (openRes : OsResult Unit)
    (writeRes : OsResult Unit) : Ret Bool × List OsCall :=
  match openRes with
  | OsResult.ok _ =>
    match writeRes with
    | OsResult.ok _ =>
        (Ret.ret true, [OsCall.openAppend path, OsCall.writeAll path])
    | OsResult.err _ =>
        (Ret.terminated, [OsCall.openAppend path, OsCall.writeAll path])
  | OsResult.err _ => (Ret.ret false, [OsCall.openAppend path])

/-- Control flow of `read_file`: starts from an empty `contents` string
and calls `File::open`; on `Ok` it calls `read_to_string` and applies
`.unwrap()` — `Ok` fills `contents` with the text read, `Err` terminates
the process; on `Err` of the open it logs and returns the still-empty
`contents`. -/
def read_file (path : String) (openRes : OsResult Unit)
    (readRes : OsResult String) : Ret String × List OsCall :=
  match openRes with
  | OsResult.ok _ =>
    match readRes with
    | OsResult.ok s =>
        (Ret.ret s, [OsCall.fileOpen path, OsCall.readToString path])
    | OsResult.err _ =>
        (Ret.terminated, [OsCall.fileOpen path, OsCall.readToString path])
  | OsResult.err _ => (Ret.ret "", [OsCall.fileOpen path])

/-- Control flow of `run_command`: calls
`Command::new(program).args(args).status()`; on `Ok(s)` it returns
`s.code()` (the exit code if the process produced one, `none` if it was
terminated by a signal); on `Err` it logs and returns `none`. -/
def run_command (program : String) (statusRes : OsResult (Option Int)) :
    Option Int × List OsCall :=
  match statusRes with
  | OsResult.ok s => (s, [OsCall.commandStatus program])
  | OsResult.err _ => (none, [OsCall.commandStatus program])

end Flow

namespace Model

/-- A path, as a list of components (the string-to-path parsing of the
host OS is not modelled: claims quantify over already-split paths). -/
abbrev FsPath := List String

/-- A filesystem node: a regular file with its text contents, or a
directory. -/
inductive Node where
  | file (contents : String)
  | dir
  deriving DecidableEq

/-- The filesystem state: an association list from paths to nodes.  The
root path `[]` is an always-existing directory and is not stored. -/
abbrev Fs := List (FsPath × Node)

/-- First-match lookup in the association list. -/
def lookupNode : Fs → FsPath → Option Node
  | [], _ => none
  | e :: rest, p => if e.1 = p then some e.2 else lookupNode rest p

/-- The node at a path; the root `[]` is always a directory. -/
def nodeAt (fs : Fs) (p : FsPath) : Option Node :=
  if p = [] then some Node.dir else lookupNode fs p

/-- Whether the path is a directory in the state. -/
def isDir (fs : Fs) (p : FsPath) : Bool :=
  match nodeAt fs p with
  | some Node.dir => true
  | _ => false

/-- Whether the path is a regular file in the state. -/
def isFile (fs : Fs) (p : FsPath) : Bool :=
  match nodeAt fs p with
  | some (Node.file _) => true
  | _ => false

/-- Remove the entry (if any) stored for a path. -/
def removeNode : Fs → FsPath → Fs
  | [], _ => []
  | e :: rest, p => if e.1 = p then removeNode rest p else e :: removeNode rest p

/-- Store a node at a path, replacing any previous entry. -/
def setNode (fs : Fs) (p : FsPath) (n : Node) : Fs :=
  (p, n) :: removeNode fs p

/-- Remove the entry for a path together with every entry below it. -/
def removeTree : Fs → FsPath → Fs
  | [], _ => []
  | e :: rest, p =>
    if p.isPrefixOf e.1 then removeTree rest p else e :: removeTree rest p

/-- Whether `q` is a direct child of `d`: one component longer and
extending `d`. -/
def isChildOf (q d : FsPath) : Bool :=
  (q.length == d.length + 1) && d.isPrefixOf q

/-- The direct entries of a directory, in state order. -/
def childKeys : Fs → FsPath → List FsPath
  | [], _ => []
  | e :: rest, d =>
    if isChildOf e.1 d then e.1 :: childKeys rest d else childKeys rest d

/-- Models `fs::create_dir_all` walking the components of the path from
the root: a component that exists as a file is an error; a missing
component is created as a directory; an existing directory is kept. -/
def createDirsAux (fs : Fs) (done : FsPath) (rest : List String) :
    Except String Fs :=
  match rest with
  | [] => Except.ok fs
  | c :: cs =>
    match nodeAt fs (done ++ [c]) with
    | some (Node.file _) => Except.error "Not a directory"
    | some Node.dir => createDirsAux fs (done ++ [c]) cs
    | none => createDirsAux (setNode fs (done ++ [c]) Node.dir) (done ++ [c]) cs

/-- Models `fs::create_dir_all`: recursively create all missing
directories along the path; the empty path is an error. -/
def osCreateDirAll (fs : Fs) (p : FsPath) : Except String Fs :=
  if p = [] then Except.error "cannot create the root" else createDirsAux fs [] p

/-- Models `fs::remove_file`: removes a regular file; a directory or a
missing path is an error. -/
def osRemoveFile (fs : Fs) (p : FsPath) : Except String Fs :=
  match nodeAt fs p with
  | some (Node.file _) => Except.ok (removeNode fs p)
  | some Node.dir => Except.error "Is a directory"
  | none => Except.error "No such file or directory"

/-- Models `fs::remove_dir`: removes an empty directory; a non-empty
directory, a file or a missing path is an error. -/
def osRemoveDir (fs : Fs) (p : FsPath) : Except String Fs :=
  match nodeAt fs p with
  | some Node.dir =>
    if childKeys fs p = [] then Except.ok (removeNode fs p)
    else Except.error "Directory not empty"
  | some (Node.file _) => Except.error "Not a directory"
  | none => Except.error "No such file or directory"

/-- Models `fs::remove_dir_all`: removes a directory and all its
contents; a file or a missing path is an error. -/
def osRemoveDirAll (fs : Fs) (p : FsPath) : Except String Fs :=
  match nodeAt fs p with
  | some Node.dir => Except.ok (removeTree fs p)
  | some (Node.file _) => Except.error "Not a directory"
  | none => Except.error "No such file or directory"

/-- Models `fs::read_dir` followed by draining the iterator: the list of
direct entries of a directory; a non-directory is an error. -/
def osReadDir (fs : Fs) (p : FsPath) : Except String (List FsPath) :=
  if isDir fs p then Except.ok (childKeys fs p) else Except.error "Not a directory"

/-- Models `File::create`: creates or truncates a regular file; an
existing directory is an error, and creating a new file requires the
parent to be an existing directory. -/
def osFileCreate (fs : Fs) (p : FsPath) : Except String Fs :=
  match nodeAt fs p with
  | some Node.dir => Except.error "Is a directory"
  | some (Node.file _) => Except.ok (setNode fs p (Node.file ""))
  | none =>
    if isDir fs p.dropLast then Except.ok (setNode fs p (Node.file ""))
    else Except.error "No such file or directory"

/-- Models the `OpenOptions` open of `write_file_append` (write, create,
append): an existing file is opened as is, a missing file is created
empty when the parent is an existing directory, a directory is an
error. -/
def osOpenAppend (fs : Fs) (p : FsPath) : Except String Fs :=
  match nodeAt fs p with
  | some (Node.file _) => Except.ok fs
  | some Node.dir => Except.error "Is a directory"
  | none =>
    if isDir fs p.dropLast then Except.ok (setNode fs p (Node.file ""))
    else Except.error "No such file or directory"

/-- Models `write_all` on a handle opened at `p`: appends the text at the
current end of the file (a file freshly truncated by `File::create` is
empty, so this also covers the create/truncate write).  In this
deterministic model the write step itself cannot fail on an open file;
the panic the source would perform on such a failure is covered by
`Flow.write_file` and `Flow.write_file_append`. -/
def osWriteAll (fs : Fs) (p : FsPath) (s : String) : Except String Fs :=
  match nodeAt fs p with
  | some (Node.file c) => Except.ok (setNode fs p (Node.file (c ++ s)))
  | _ => Except.error "Bad file descriptor"

/-- Models `File::open` followed by `read_to_string`: produces the
contents of a regular file; a directory or a missing path is an open
error.  The read step on an opened file cannot fail in this model (model
contents are always valid text); the panic the source would perform on a
failing read is covered by `Flow.read_file`. -/
def osFileOpen (fs : Fs) (p : FsPath) : Except String String :=
  match nodeAt fs p with
  | some (Node.file c) => Except.ok c
  | _ => Except.error "cannot open"

/-- `path_exists` over the model state: whether any node is at the
path. -/
def path_exists (fs : Fs) (p : FsPath) : Bool :=
  (nodeAt fs p).isSome

/-- `mkdir` over the model state: if the path does not exist, create all
missing directories; returns the flag of the source together with the
resulting state. -/
def mkdir (fs : Fs) (p : FsPath) : Bool × Fs :=
  if !path_exists fs p then
    match osCreateDirAll fs p with
    | Except.ok fs2 => (true, fs2)
    | Except.error _ => (false, fs)
  else (false, fs)

/-- `rm` over the model state. -/
def rm (fs : Fs) (p : FsPath) : Bool × Fs :=
  if path_exists fs p then
    match osRemoveFile fs p with
    | Except.ok fs2 => (true, fs2)
    | Except.error _ => (false, fs)
  else (false, fs)

/-- `rmdir` over the model state; a missing path is reported as
success. -/
def rmdir (fs : Fs) (p : FsPath) : Bool × Fs :=
  if path_exists fs p then
    match osRemoveDir fs p with
    | Except.ok fs2 => (true, fs2)
    | Except.error _ => (false, fs)
  else (true, fs)

/-- `rm_r` over the model state; a missing path is reported as
success. -/
def rm_r (fs : Fs) (p : FsPath) : Bool × Fs :=
  if path_exists fs p then
    match osRemoveDirAll fs p with
    | Except.ok fs2 => (true, fs2)
    | Except.error _ => (false, fs)
  else (true, fs)

/-- `directory_is_empty` over the model state: existence check, directory
check, then the count of the entries produced by `fs::read_dir` (zero
when the listing itself fails), with emptiness meaning a zero count. -/
def directory_is_empty (fs : Fs) (p : FsPath) : Bool :=
  if path_exists fs p then
    if isDir fs p then
      let i :=
        match osReadDir fs p with
        | Except.ok entries => entries.length
        | Except.error _ => 0
      if i = 0 then true else false
    else false
  else false

/-- `create_file` over the model state. -/
def create_file (fs : Fs) (p : FsPath) : Bool × Fs :=
  match osFileCreate fs p with
  | Except.ok fs2 => (true, fs2)
  | Except.error _ => (false, fs)

/-- `write_file` over the model state: `File::create`, then `write_all`
with `.unwrap()`.  `none` models the process-terminating panic of the
unwrap (unreachable here because the model write step succeeds on any
open file). -/
def write_file (fs : Fs) (p : FsPath) (contents : String) :
    Option (Bool × Fs) :=
  match osFileCreate fs p with
  | Except.ok fs1 =>
    match osWriteAll fs1 p contents with
    | Except.ok fs2 => some (true, fs2)
    | Except.error _ => none
  | Except.error _ => some (false, fs)

/-- `write_file_append` over the model state: the append-mode open, then
`write_all` with `.unwrap()`, as in `write_file`. -/
def write_file_append (fs : Fs) (p : FsPath) (contents : String) :
    Option (Bool × Fs) :=
  match osOpenAppend fs p with
  | Except.ok fs1 =>
    match osWriteAll fs1 p contents with
    | Except.ok fs2 => some (true, fs2)
    | Except.error _ => none
  | Except.error _ => some (false, fs)

/-- `read_file` over the model state: contents of the file when it can be
opened, the still-empty string otherwise. -/
def read_file (fs : Fs) (p : FsPath) : String :=
  match osFileOpen fs p with
  | Except.ok c => c
  | Except.error _ => ""

end Model

/-! Helper lemmas about the model primitives. -/

namespace Model

theorem lookupNode_removeNode_self (fs : Fs) (p : FsPath) :
    lookupNode (removeNode fs p) p = none := by
  induction fs with
  | nil => rfl
  | cons e rest ih =>
    unfold removeNode
    by_cases h : e.1 = p
    · simpa [h] using ih
    · simpa [lookupNode, h] using ih

theorem lookupNode_removeNode_ne (fs : Fs) (p q : FsPath) (h : q ≠ p) :
    lookupNode (removeNode fs p) q = lookupNode fs q := by
  induction fs with
  | nil => rfl
  | cons e rest ih =>
    by_cases h1 : e.1 = p
    · have h2 : ¬ e.1 = q := by
        rw [h1]
        exact fun hq => h hq.symm
      rw [show removeNode (e :: rest) p = removeNode rest p from by
        simp [removeNode, h1]]
      rw [ih]
      conv_rhs => rw [lookupNode]
      rw [if_neg h2]
    · rw [show removeNode (e :: rest) p = e :: removeNode rest p from by
        simp [removeNode, h1]]
      by_cases h2 : e.1 = q
      · rw [lookupNode, if_pos h2]
        conv_rhs => rw [lookupNode]
        rw [if_pos h2]
      · rw [lookupNode, if_neg h2]
        conv_rhs => rw [lookupNode]
        rw [if_neg h2]
        exact ih

theorem nodeAt_setNode_self (fs : Fs) (p : FsPath) (n : Node) (hp : p ≠ []) :
    nodeAt (setNode fs p n) p = some n := by
  unfold nodeAt setNode lookupNode
  simp [hp]

theorem nodeAt_setNode_ne (fs : Fs) (p q : FsPath) (n : Node) (h : q ≠ p) :
    nodeAt (setNode fs p n) q = nodeAt fs q := by
  unfold nodeAt setNode
  by_cases hq : q = []
  · simp [hq]
  · have h1 : ¬ p = q := fun he => h he.symm
    simp only [hq, if_false, lookupNode, h1]
    exact lookupNode_removeNode_ne fs p q h

theorem nodeAt_nil_root (fs : Fs) : nodeAt fs [] = some Node.dir := by
  unfold nodeAt
  simp

theorem nodeAt_of_not_exists (fs : Fs) (p : FsPath)
    (h : path_exists fs p = false) : nodeAt fs p = none := by
  unfold path_exists at h
  cases hn : nodeAt fs p with
  | none => rfl
  | some n => rw [hn] at h; simp at h

theorem ne_nil_of_not_dir (fs : Fs) (p : FsPath)
    (h : nodeAt fs p ≠ some Node.dir) : p ≠ [] := by
  intro hp
  exact h (by rw [hp]; exact nodeAt_nil_root fs)

theorem empty_append_string (s : String) : "" ++ s = s := by
  cases s
  rfl

theorem nodeAt_of_isDir (fs : Fs) (p : FsPath) (h : isDir fs p = true) :
    nodeAt fs p = some Node.dir := by
  unfold isDir at h
  revert h
  cases hn : nodeAt fs p with
  | none => intro h; exact absurd h (by simp)
  | some n =>
    cases n with
    | file c => intro h; exact absurd h (by simp)
    | dir => intro _; rfl

theorem createDirsAux_ok (rest : List String) :
    ∀ (fs : Fs) (done : FsPath),
      isDir fs done = true →
      (∀ n, n ≤ rest.length → isFile fs (done ++ rest.take n) = false) →
      ∃ fs2, createDirsAux fs done rest = Except.ok fs2 ∧
        isDir fs2 (done ++ rest) = true := by
  induction rest with
  | nil =>
    intro fs done hdir _
    exact ⟨fs, rfl, by simpa using hdir⟩
  | cons c cs ih =>
    intro fs done hdir hfiles
    have h1 : isFile fs (done ++ [c]) = false := by
      have h := hfiles 1 (by simp)
      simpa using h
    have hne : done ++ [c] ≠ [] := by simp
    unfold createDirsAux
    cases hq : nodeAt fs (done ++ [c]) with
    | none =>
      have hdir2 : isDir (setNode fs (done ++ [c]) Node.dir) (done ++ [c]) = true := by
        unfold isDir
        rw [nodeAt_setNode_self fs (done ++ [c]) Node.dir hne]
      have hfiles2 : ∀ n, n ≤ cs.length →
          isFile (setNode fs (done ++ [c]) Node.dir) ((done ++ [c]) ++ cs.take n)
            = false := by
        intro n hn
        by_cases hcase : (done ++ [c]) ++ cs.take n = done ++ [c]
        · rw [hcase]
          unfold isFile
          rw [nodeAt_setNode_self fs (done ++ [c]) Node.dir hne]
        · unfold isFile
          rw [nodeAt_setNode_ne fs (done ++ [c]) _ Node.dir hcase]
          have h := hfiles (n + 1) (by simp only [List.length_cons]; omega)
          unfold isFile at h
          rw [List.take_succ_cons] at h
          rw [show done ++ (c :: cs.take n) = (done ++ [c]) ++ cs.take n from by
            simp] at h
          exact h
      obtain ⟨fs2, heq, hres⟩ :=
        ih (setNode fs (done ++ [c]) Node.dir) (done ++ [c]) hdir2 hfiles2
      refine ⟨fs2, heq, ?_⟩
      rw [show done ++ (c :: cs) = (done ++ [c]) ++ cs from by simp]
      exact hres
    | some node =>
      cases node with
      | file str =>
        exfalso
        unfold isFile at h1
        rw [hq] at h1
        simp at h1
      | dir =>
        have hdir2 : isDir fs (done ++ [c]) = true := by
          unfold isDir
          rw [hq]
        have hfiles2 : ∀ n, n ≤ cs.length →
            isFile fs ((done ++ [c]) ++ cs.take n) = false := by
          intro n hn
          have h := hfiles (n + 1) (by simp only [List.length_cons]; omega)
          rw [List.take_succ_cons] at h
          rw [show done ++ (c :: cs.take n) = (done ++ [c]) ++ cs.take n from by
            simp] at h
          exact h
        obtain ⟨fs2, heq, hres⟩ := ih fs (done ++ [c]) hdir2 hfiles2
        refine ⟨fs2, heq, ?_⟩
        rw [show done ++ (c :: cs) = (done ++ [c]) ++ cs from by simp]
        exact hres

theorem osFileCreate_eq (fs : Fs) (p : FsPath)
    (hpar : isDir fs p.dropLast = true) (hnd : nodeAt fs p ≠ some Node.dir) :
    osFileCreate fs p = Except.ok (setNode fs p (Node.file "")) := by
  unfold osFileCreate
  cases hn : nodeAt fs p with
  | none => simp [hpar]
  | some n =>
    cases n with
    | file c => rfl
    | dir => exact absurd hn hnd

theorem read_file_of_nodeAt (fs : Fs) (p : FsPath) (c : String)
    (h : nodeAt fs p = some (Node.file c)) : read_file fs p = c := by
  unfold read_file osFileOpen
  rw [h]

theorem write_file_spec (fs : Fs) (p : FsPath) (s : String)
    (hpar : isDir fs p.dropLast = true) (hnd : nodeAt fs p ≠ some Node.dir) :
    ∃ fs2, write_file fs p s = some (true, fs2) ∧
      nodeAt fs2 p = some (Node.file s) := by
  have hp : p ≠ [] := ne_nil_of_not_dir fs p hnd
  have h1 := osFileCreate_eq fs p hpar hnd
  have h2 : nodeAt (setNode fs p (Node.file "")) p = some (Node.file "") :=
    nodeAt_setNode_self fs p (Node.file "") hp
  refine ⟨setNode (setNode fs p (Node.file "")) p (Node.file ("" ++ s)), ?_, ?_⟩
  · unfold write_file
    rw [h1]
    dsimp only
    unfold osWriteAll
    rw [h2]
  · rw [nodeAt_setNode_self _ p _ hp, empty_append_string]

theorem write_file_append_spec_file (fs : Fs) (p : FsPath) (s c : String)
    (h : nodeAt fs p = some (Node.file c)) :
    ∃ fs2, write_file_append fs p s = some (true, fs2) ∧
      nodeAt fs2 p = some (Node.file (c ++ s)) := by
  have hp : p ≠ [] := by
    intro hnil
    rw [hnil, nodeAt_nil_root] at h
    exact Node.noConfusion (Option.some.inj h)
  refine ⟨setNode fs p (Node.file (c ++ s)), ?_, ?_⟩
  · unfold write_file_append osOpenAppend
    rw [h]
    dsimp only
    unfold osWriteAll
    rw [h]
  · exact nodeAt_setNode_self fs p _ hp

theorem write_file_append_spec_new (fs : Fs) (p : FsPath) (s : String)
    (h : nodeAt fs p = none) (hpar : isDir fs p.dropLast = true) :
    ∃ fs2, write_file_append fs p s = some (true, fs2) ∧
      nodeAt fs2 p = some (Node.file s) := by
  have hp : p ≠ [] := by
    intro hnil
    rw [hnil, nodeAt_nil_root] at h
    exact Option.noConfusion h
  have h2 : nodeAt (setNode fs p (Node.file "")) p = some (Node.file "") :=
    nodeAt_setNode_self fs p (Node.file "") hp
  refine ⟨setNode (setNode fs p (Node.file "")) p (Node.file ("" ++ s)), ?_, ?_⟩
  · unfold write_file_append osOpenAppend
    rw [h]
    dsimp only
    rw [if_pos hpar]
    dsimp only
    unfold osWriteAll
    rw [h2]
  · rw [nodeAt_setNode_self _ p _ hp, empty_append_string]

end Model

/-! Claim theorems. -/

/-- Claim C1: for write_file and write_file_append, a failure of the
open/create step yields a normal return of false, while a failure of the
write step after a successful open terminates the process (the unwrap
panics) instead of returning false; consequently, whenever either
function returns at all after a successful open, it returns true — after
a successful open the result is never a normal return of false. -/
theorem write_failure_policy (path e : String) (wr : OsResult Unit) :
    (∀ r, Flow.write_file path (OsResult.err e) r
      = (Ret.ret false, [OsCall.fileCreate path])) ∧
    Flow.write_file path (OsResult.ok ()) (OsResult.ok ())
      = (Ret.ret true, [OsCall.fileCreate path, OsCall.writeAll path]) ∧
    Flow.write_file path (OsResult.ok ()) (OsResult.err e)
      = (Ret.terminated, [OsCall.fileCreate path, OsCall.writeAll path]) ∧
    (Flow.write_file path (OsResult.ok ()) wr).1 ≠ Ret.ret false ∧
    (∀ r, Flow.write_file_append path (OsResult.err e) r
      = (Ret.ret false, [OsCall.openAppend path])) ∧
    Flow.write_file_append path (OsResult.ok ()) (OsResult.ok ())
      = (Ret.ret true, [OsCall.openAppend path, OsCall.writeAll path]) ∧
    Flow.write_file_append path (OsResult.ok ()) (OsResult.err e)
      = (Ret.terminated, [OsCall.openAppend path, OsCall.writeAll path]) ∧
    (Flow.write_file_append path (OsResult.ok ()) wr).1 ≠ Ret.ret false := by
  refine ⟨fun r => rfl, rfl, rfl, ?_, fun r => rfl, rfl, rfl, ?_⟩
  · cases wr <;> simp [Flow.write_file]
  · cases wr <;> simp [Flow.write_file_append]

/-- Claim C1 witness: concrete open results exercising the
after-successful-open conjuncts. -/
theorem write_failure_policy_witness :
    (Flow.write_file "f" (OsResult.ok ()) (OsResult.ok ())).1 ≠ Ret.ret false ∧
    (Flow.write_file_append "f" (OsResult.ok ()) (OsResult.err "boom")).1
      ≠ Ret.ret false :=
  ⟨(write_failure_policy "f" "boom" (OsResult.ok ())).2.2.2.1,
   (write_failure_policy "f" "boom" (OsResult.err "boom")).2.2.2.2.2.2.2⟩

/-- Claim C2: directory_is_empty is true exactly when the path exists, is
a directory, and its listing yields zero direct entries; it is false when
the path is missing, is not a directory, or has at least one entry. -/
theorem directory_is_empty_iff (fs : Model.Fs) (p : Model.FsPath) :
    Model.directory_is_empty fs p = true ↔
      Model.path_exists fs p = true ∧ Model.isDir fs p = true ∧
        Model.childKeys fs p = [] := by
  unfold Model.directory_is_empty Model.osReadDir
  by_cases h1 : Model.path_exists fs p
  · by_cases h2 : Model.isDir fs p
    · simp [h1, h2, List.length_eq_zero]
    · simp [h1, h2]
  · simp [h1]

/-- Claim C2 witness: a state with one empty directory. -/
theorem directory_is_empty_iff_witness :
    Model.directory_is_empty [(["d"], Model.Node.dir)] ["d"] = true :=
  (directory_is_empty_iff [(["d"], Model.Node.dir)] ["d"]).mpr
    ⟨by decide, by decide, by decide⟩

/-- A model state holding a single empty directory at path d. -/
def oneDirState : Model.Fs := [(["d"], Model.Node.dir)]

/-- Claim C3 counterexample: the path d has an existing parent directory
(the root), yet write_file at d returns false and a subsequent read_file
does not return the written text, because d is itself a directory and the
create/truncate open fails.  The claim as stated quantifies over every
path with an existing parent and is therefore false at this input. -/
theorem write_read_roundtrip_counterexample :
    Model.isDir oneDirState ((["d"] : Model.FsPath).dropLast) = true ∧
    Model.write_file oneDirState ["d"] "x" = some (false, oneDirState) ∧
    Model.read_file oneDirState ["d"] ≠ "x" := by
  refine ⟨by decide, by decide, by decide⟩

/-- Claim C3 (amended): for any path whose parent directory exists and
which is not itself an existing directory, create_file then read_file
returns the empty string, and write_file of any text s then read_file
returns exactly s, discarding any prior content. -/
theorem write_read_roundtrip_amended (fs : Model.Fs) (p : Model.FsPath)
    (s : String)
    (hpar : Model.isDir fs p.dropLast = true)
    (hnd : Model.nodeAt fs p ≠ some Model.Node.dir) :
    ((Model.create_file fs p).1 = true ∧
      Model.read_file (Model.create_file fs p).2 p = "") ∧
    (∃ fs2, Model.write_file fs p s = some (true, fs2) ∧
      Model.read_file fs2 p = s) := by
  have hp : p ≠ [] := Model.ne_nil_of_not_dir fs p hnd
  have h1 := Model.osFileCreate_eq fs p hpar hnd
  constructor
  · have h2 : Model.create_file fs p
        = (true, Model.setNode fs p (Model.Node.file "")) := by
      unfold Model.create_file
      rw [h1]
    rw [h2]
    exact ⟨rfl, Model.read_file_of_nodeAt _ p ""
      (Model.nodeAt_setNode_self fs p _ hp)⟩
  · obtain ⟨fs2, hw, hn⟩ := Model.write_file_spec fs p s hpar hnd
    exact ⟨fs2, hw, Model.read_file_of_nodeAt fs2 p s hn⟩

/-- Claim C3 (amended) witness: a fresh file under the root. -/
theorem write_read_roundtrip_amended_witness :
    ((Model.create_file [] ["f"]).1 = true ∧
      Model.read_file (Model.create_file [] ["f"]).2 ["f"] = "") ∧
    (∃ fs2, Model.write_file [] ["f"] "hello" = some (true, fs2) ∧
      Model.read_file fs2 ["f"] = "hello") :=
  write_read_roundtrip_amended [] ["f"] "hello" (by decide) (by decide)

/-- Claim C4: on a missing path, rmdir and rm_r return true attempting
only the existence check; when the path exists and the removal call
fails, rmdir returns false, and rm_r returns false exactly when the
recursive removal call errors; over the model, a missing path leaves the
state unchanged with result true, and a non-empty directory makes rmdir
return false. -/
theorem rmdir_rm_r_policy (path e : String) (fs : Model.Fs)
    (p : Model.FsPath) :
    (∀ r, Flow.rmdir path false r = (true, [OsCall.pathExists path])) ∧
    (∀ r, Flow.rm_r path false r = (true, [OsCall.pathExists path])) ∧
    Flow.rmdir path true (OsResult.err e)
      = (false, [OsCall.pathExists path, OsCall.removeDir path]) ∧
    Flow.rm_r path true (OsResult.ok ())
      = (true, [OsCall.pathExists path, OsCall.removeDirAll path]) ∧
    Flow.rm_r path true (OsResult.err e)
      = (false, [OsCall.pathExists path, OsCall.removeDirAll path]) ∧
    (Model.path_exists fs p = false →
      Model.rmdir fs p = (true, fs) ∧ Model.rm_r fs p = (true, fs)) ∧
    (Model.isDir fs p = true → Model.childKeys fs p ≠ [] →
      (Model.rmdir fs p).1 = false) := by
  refine ⟨fun r => rfl, fun r => rfl, rfl, rfl, rfl, ?_, ?_⟩
  · intro h
    constructor
    · unfold Model.rmdir
      rw [h]
      simp
    · unfold Model.rm_r
      rw [h]
      simp
  · intro hdir hne
    have hnode := Model.nodeAt_of_isDir fs p hdir
    have hex : Model.path_exists fs p = true := by
      unfold Model.path_exists
      rw [hnode]
      rfl
    unfold Model.rmdir
    rw [if_pos hex]
    unfold Model.osRemoveDir
    rw [hnode]
    dsimp only
    rw [if_neg hne]

/-- Claim C4 witness: a missing path, and a directory with one entry. -/
theorem rmdir_rm_r_policy_witness :
    (Model.rmdir [] ["z"] = (true, []) ∧ Model.rm_r [] ["z"] = (true, [])) ∧
    (Model.rmdir [(["d"], Model.Node.dir), (["d", "x"], Model.Node.file "")]
      ["d"]).1 = false :=
  ⟨(rmdir_rm_r_policy "z" "e" [] ["z"]).2.2.2.2.2.1 (by decide),
   (rmdir_rm_r_policy "z" "e"
      [(["d"], Model.Node.dir), (["d", "x"], Model.Node.file "")]
      ["d"]).2.2.2.2.2.2 (by decide) (by decide)⟩

/-- Claim C5: rm on a missing path returns false attempting only the
existence check and leaving the state unchanged; rm on an existing
regular file returns true and afterwards path_exists on that path is
false. -/
theorem rm_policy (path : String) (fs : Model.Fs) (p : Model.FsPath) :
    (∀ r, Flow.rm path false r = (false, [OsCall.pathExists path])) ∧
    (Model.path_exists fs p = false → Model.rm fs p = (false, fs)) ∧
    (∀ c, Model.nodeAt fs p = some (Model.Node.file c) →
      (Model.rm fs p).1 = true ∧
        Model.path_exists (Model.rm fs p).2 p = false) := by
  refine ⟨fun r => rfl, ?_, ?_⟩
  · intro h
    unfold Model.rm
    rw [h]
    simp
  · intro c h
    have hp : p ≠ [] := by
      intro hnil
      rw [hnil, Model.nodeAt_nil_root] at h
      exact Model.Node.noConfusion (Option.some.inj h)
    have hex : Model.path_exists fs p = true := by
      unfold Model.path_exists
      rw [h]
      rfl
    have hrm : Model.rm fs p = (true, Model.removeNode fs p) := by
      unfold Model.rm
      rw [if_pos hex]
      unfold Model.osRemoveFile
      rw [h]
    rw [hrm]
    refine ⟨rfl, ?_⟩
    unfold Model.path_exists Model.nodeAt
    rw [if_neg hp, Model.lookupNode_removeNode_self]
    rfl

/-- Claim C5 witness: a missing path, and a one-file state. -/
theorem rm_policy_witness :
    Model.rm [] ["f"] = (false, []) ∧
    ((Model.rm [(["f"], Model.Node.file "hi")] ["f"]).1 = true ∧
      Model.path_exists (Model.rm [(["f"], Model.Node.file "hi")] ["f"]).2
        ["f"] = false) :=
  ⟨(rm_policy "f" [] ["f"]).2.1 (by decide),
   (rm_policy "f" [(["f"], Model.Node.file "hi")] ["f"]).2.2 "hi" (by decide)⟩

/-- Claim C6: on a fresh path whose strict ancestors are all creatable
(none exists as a file), mkdir returns true and afterwards path_exists is
true; an immediate second mkdir returns false, and in general mkdir on an
existing path of any node type returns false attempting only the
existence check. -/
theorem mkdir_fresh (fs : Model.Fs) (p : Model.FsPath)
    (hfresh : Model.path_exists fs p = false)
    (hpar : ∀ n, n < p.length → Model.isFile fs (p.take n) = false) :
    (∃ fs2, Model.mkdir fs p = (true, fs2) ∧
      Model.path_exists fs2 p = true ∧ Model.mkdir fs2 p = (false, fs2)) ∧
    (∀ path r, Flow.mkdir path true r = (false, [OsCall.pathExists path])) := by
  have hnone := Model.nodeAt_of_not_exists fs p hfresh
  have hp : p ≠ [] := by
    intro hnil
    rw [hnil, Model.nodeAt_nil_root] at hnone
    exact Option.noConfusion hnone
  have hroot : Model.isDir fs [] = true := by
    unfold Model.isDir
    rw [Model.nodeAt_nil_root]
  have hfiles : ∀ n, n ≤ p.length →
      Model.isFile fs (([] : Model.FsPath) ++ p.take n) = false := by
    intro n hn
    rcases Nat.lt_or_ge n p.length with hlt | hge
    · simpa using hpar n hlt
    · have htake : p.take n = p := List.take_of_length_le hge
      rw [List.nil_append, htake]
      unfold Model.isFile
      rw [hnone]
  obtain ⟨fs2, heq, hdir2⟩ := Model.createDirsAux_ok p fs [] hroot hfiles
  rw [List.nil_append] at hdir2
  have hmk : Model.mkdir fs p = (true, fs2) := by
    unfold Model.mkdir
    rw [hfresh]
    unfold Model.osCreateDirAll
    rw [if_neg hp, heq]
    rfl
  have hex2 : Model.path_exists fs2 p = true := by
    unfold Model.path_exists
    rw [Model.nodeAt_of_isDir fs2 p hdir2]
    rfl
  refine ⟨⟨fs2, hmk, hex2, ?_⟩, fun path r => rfl⟩
  unfold Model.mkdir
  rw [hex2]
  rfl

/-- Claim C6 witness: a fresh two-component path over the empty state. -/
theorem mkdir_fresh_witness :
    (∃ fs2, Model.mkdir [] ["a", "b"] = (true, fs2) ∧
      Model.path_exists fs2 ["a", "b"] = true ∧
      Model.mkdir fs2 ["a", "b"] = (false, fs2)) ∧
    (∀ path r, Flow.mkdir path true r = (false, [OsCall.pathExists path])) :=
  mkdir_fresh [] ["a", "b"] (by decide) (by decide)

/-- Claim C7 counterexample: the path d has an existing parent directory
(the root), yet the write A, append B, read chain produces the empty
string rather than AB, because d is itself a directory and both opens
fail.  The claim as stated quantifies over every path with an existing
parent and is therefore false at this input. -/
theorem append_roundtrip_counterexample :
    Model.isDir oneDirState ((["d"] : Model.FsPath).dropLast) = true ∧
    Model.write_file oneDirState ["d"] "A" = some (false, oneDirState) ∧
    Model.write_file_append oneDirState ["d"] "B" = some (false, oneDirState) ∧
    Model.read_file oneDirState ["d"] ≠ "AB" := by
  refine ⟨by decide, by decide, by decide, by decide⟩

/-- Claim C7 (amended): for any path whose parent directory exists and
which is not itself an existing directory, write_file of A then
write_file_append of B then read_file returns AB; moreover
write_file_append preserves the existing content and appends the new text
at the end, creating the file when it is absent. -/
theorem append_roundtrip_amended (fs : Model.Fs) (p : Model.FsPath)
    (s : String)
    (hpar : Model.isDir fs p.dropLast = true)
    (hnd : Model.nodeAt fs p ≠ some Model.Node.dir) :
    (∃ fs1 fs2, Model.write_file fs p "A" = some (true, fs1) ∧
      Model.write_file_append fs1 p "B" = some (true, fs2) ∧
      Model.read_file fs2 p = "AB") ∧
    (∀ c, Model.nodeAt fs p = some (Model.Node.file c) →
      ∃ fs3, Model.write_file_append fs p s = some (true, fs3) ∧
        Model.read_file fs3 p = c ++ s) ∧
    (Model.nodeAt fs p = none →
      ∃ fs4, Model.write_file_append fs p s = some (true, fs4) ∧
        Model.read_file fs4 p = s) := by
  refine ⟨?_, ?_, ?_⟩
  · obtain ⟨fs1, hw, hn1⟩ := Model.write_file_spec fs p "A" hpar hnd
    obtain ⟨fs2, ha, hn2⟩ := Model.write_file_append_spec_file fs1 p "B" "A" hn1
    exact ⟨fs1, fs2, hw, ha, Model.read_file_of_nodeAt fs2 p _ hn2⟩
  · intro c h
    obtain ⟨fs3, ha, hn3⟩ := Model.write_file_append_spec_file fs p s c h
    exact ⟨fs3, ha, Model.read_file_of_nodeAt fs3 p _ hn3⟩
  · intro h
    obtain ⟨fs4, ha, hn4⟩ := Model.write_file_append_spec_new fs p s h hpar
    exact ⟨fs4, ha, Model.read_file_of_nodeAt fs4 p _ hn4⟩

/-- Claim C7 (amended) witness: a fresh file under the root. -/
theorem append_roundtrip_amended_witness :
    (∃ fs1 fs2, Model.write_file [] ["f"] "A" = some (true, fs1) ∧
      Model.write_file_append fs1 ["f"] "B" = some (true, fs2) ∧
      Model.read_file fs2 ["f"] = "AB") ∧
    (∀ c, Model.nodeAt [] ["f"] = some (Model.Node.file c) →
      ∃ fs3, Model.write_file_append [] ["f"] "s" = some (true, fs3) ∧
        Model.read_file fs3 ["f"] = c ++ "s") ∧
    (Model.nodeAt ([] : Model.Fs) ["f"] = none →
      ∃ fs4, Model.write_file_append [] ["f"] "s" = some (true, fs4) ∧
        Model.read_file fs4 ["f"] = "s") :=
  append_roundtrip_amended [] ["f"] "s" (by decide) (by decide)

/-- Claim C8: when the open fails, read_file returns the empty string on
every failure — the same value as reading a legitimately empty file — and
the returned value does not depend on the failure reason, which is only
logged. -/
theorem read_file_open_failure (path e e2 : String)
    (rd rd2 : OsResult String) :
    Flow.read_file path (OsResult.err e) rd
      = (Ret.ret "", [OsCall.fileOpen path]) ∧
    (Flow.read_file path (OsResult.err e) rd).1
      = (Flow.read_file path (OsResult.ok ()) (OsResult.ok "")).1 ∧
    (Flow.read_file path (OsResult.err e) rd).1
      = (Flow.read_file path (OsResult.err e2) rd2).1 :=
  ⟨rfl, rfl, rfl⟩

/-- Claim C9: run_command returns the exit code exactly when the status
call succeeded and the process produced a code; a spawn failure or a
termination without a code (signal) yields none. -/
theorem run_command_exit_code (prog e : String) (c : Int) (st : Option Int) :
    Flow.run_command prog (OsResult.ok st) = (st, [OsCall.commandStatus prog]) ∧
    Flow.run_command prog (OsResult.err e)
      = (none, [OsCall.commandStatus prog]) ∧
    (∀ r, (Flow.run_command prog r).1 = some c ↔ r = OsResult.ok (some c)) := by
  refine ⟨rfl, rfl, fun r => ?_⟩
  cases r with
  | ok s => simp [Flow.run_command]
  | err e2 => simp [Flow.run_command]

/-- Claim C9 witness: a status call producing exit code zero. -/
theorem run_command_exit_code_witness :
    (Flow.run_command "sh" (OsResult.ok (some 0))).1 = some 0 :=
  ((run_command_exit_code "sh" "e" 0 (some 0)).2.2
    (OsResult.ok (some 0))).mpr rfl

/-- Claim C10: if the open succeeds but the read step fails, read_file
terminates the process (unwrap panic) instead of returning the empty
string; the empty-string fallback applies exactly to open failures, and a
successful read returns the contents. -/
theorem read_failure_terminates (path e s : String) (rd : OsResult String) :
    Flow.read_file path (OsResult.ok ()) (OsResult.err e)
      = (Ret.terminated, [OsCall.fileOpen path, OsCall.readToString path]) ∧
    Flow.read_file path (OsResult.err e) rd
      = (Ret.ret "", [OsCall.fileOpen path]) ∧
    Flow.read_file path (OsResult.ok ()) (OsResult.ok s)
      = (Ret.ret s, [OsCall.fileOpen path, OsCall.readToString path]) :=
  ⟨rfl, rfl, rfl⟩

end Fsutils
